import Mathlib

/-!
Verification development for the twitter_verses repository
(src/post_verse.py). The Python functions are shallowly embedded as
executable Lean definitions:

* the filesystem is an association list from file names to file
  contents (strings); `os.rename` follows POSIX semantics, where an
  existing destination is replaced silently;
* Python string operations used by the program (split on a single
  character, strip, character containment) are embedded structurally
  over the character list of the string so that the kernel can
  evaluate them;
* `random.choices(available, weights, k=1)[0]` is abstracted by an
  oracle `ℕ → ℕ` giving the index drawn at each attempt, reduced
  modulo the list length.  Every weight produced by the source loop is
  strictly positive (lemma `codeWeight_pos`), so every index of the
  available list can be drawn and the oracle abstraction is sound;
* the Twitter client call is an external collaborator and is
  abstracted by an `Except` valued result handed to `mainRun`.
-/

/-- Python str.split(sep) for a single-character separator,
    over character lists. -/
def splitChars (sep : Char) : List Char → List (List Char)
  | [] => [[]]
  | c :: cs =>
    let rest := splitChars sep cs
    if c = sep then [] :: rest
    else
      match rest with
      | [] => [[c]]
      | r :: rs => (c :: r) :: rs

/-- Python s.split(sep) for a one-character separator. -/
def splitOnC (s : String) (sep : Char) : List String :=
  (splitChars sep s.data).map String.mk

/-- Python s.strip(): remove leading and trailing whitespace. -/
def stripStr (s : String) : String :=
  String.mk (((s.data.dropWhile Char.isWhitespace).reverse.dropWhile
    Char.isWhitespace).reverse)

/-- Python `c in s` for a character c. -/
def containsC (s : String) (c : Char) : Bool :=
  s.data.any (fun x => x = c)

/-- The filesystem: a finite map from file names to contents. -/
abbrev FS := List (String × String)

def lookupFile : FS → String → Option String
  | [], _ => none
  | (m, c) :: t, n => if m = n then some c else lookupFile t n

def eraseFile (fs : FS) (n : String) : FS :=
  fs.filter (fun p => decide (p.1 ≠ n))

/-- Create or overwrite a file. -/
def setFile (fs : FS) (n c : String) : FS :=
  (n, c) :: eraseFile fs n

/-- Python open(n, mode=a) followed by a write: append, creating the
    file when absent. -/
def appendFile (fs : FS) (n s : String) : FS :=
  match lookupFile fs n with
  | none => setFile fs n s
  | some c => setFile fs n (c ++ s)

/-- POSIX os.rename: the destination is replaced silently when it
    already exists.  The source always exists at the call sites below. -/
def renameFile (fs : FS) (src dst : String) : FS :=
  match lookupFile fs src with
  | none => fs
  | some c => setFile (eraseFile fs src) dst c

/-- One row of bible_verses.csv: a (reference, text) pair. -/
structure Verse where
  reference : String
  text : String
deriving DecidableEq

/-- The stripped nonempty lines of the ledger file, in order.
    Python builds a set of these lines; only membership (and
    emptiness) of that set is ever consulted, which agrees with list
    membership here. -/
def ledgerLines (content : String) : List String :=
  ((splitOnC content '\n').map stripStr).filter (fun l => decide (l ≠ ""))

/-- load_posted_verses: the set of stripped nonempty lines of the
    posted file, empty when the file does not exist. -/
def loadPostedVerses (fs : FS) (postedFile : String) : List String :=
  match lookupFile fs postedFile with
  | none => []
  | some c => ledgerLines c

/-- save_posted_verse: append one `reference|YYYY-MM-DD` line. -/
def savePostedVerse (fs : FS) (reference timestamp postedFile : String) : FS :=
  appendFile fs postedFile (reference ++ "|" ++ timestamp ++ "\n")

/-- The first_line local of reset_if_new_year: first line of the file,
    stripped. -/
def ledgerFirstLine (content : String) : String :=
  stripStr (List.headD (splitOnC content '\n') "")

/-- The last_year local of reset_if_new_year:
    first_line.split(sep)[1].split(dash)[0].  The index 1 access is
    guarded in the source by the pipe-containment check, so the
    default is never consulted on the guarded path. -/
def lastYearOf (content : String) : String :=
  List.headD (splitOnC (List.getD (splitOnC (ledgerFirstLine content) '|') 1 "") '-') ""

/-- The backup_file name built in reset_if_new_year; the base name is
    hardcoded in the source. -/
def backupName (lastYear : String) : String :=
  "posted_verses_" ++ lastYear ++ ".txt"

/-- reset_if_new_year: archive the ledger by renaming it when the year
    of the first record differs from the current year. -/
def resetIfNewYear (fs : FS) (currentYear postedFile : String) : FS :=
  match lookupFile fs postedFile with
  | none => fs
  | some content =>
    if containsC (ledgerFirstLine content) '|' then
      if lastYearOf content ≠ currentYear then
        renameFile fs postedFile (backupName (lastYearOf content))
      else fs
    else fs

/-- format_tweet: text - Reference, no truncation. -/
def formatTweet (v : Verse) : String :=
  v.text ++ " - " ++ v.reference

/-- Join with commas (inverse of comma splitting on the tail). -/
def joinComma : List String → String
  | [] => ""
  | [x] => x
  | x :: xs => x ++ "," ++ joinComma xs

/-- One csv.DictReader row with header reference,text: the reference is
    the part before the first comma.  Quoted-field handling of the csv
    module is not exercised by any claim and is not modelled. -/
def parseCsvRow (row : String) : Verse :=
  match splitOnC row ',' with
  | [] => ⟨"", ""⟩
  | r :: rest => ⟨r, joinComma rest⟩

/-- load_verses: skip the header row, one verse per remaining row. -/
def loadVerses (content : String) : List Verse :=
  match (splitOnC content '\n').filter (fun l => decide (l ≠ "")) with
  | [] => []
  | _header :: rows => rows.map parseCsvRow

/-- The available_verses local of select_valid_verse: the verses whose
    reference is not a member of the posted set, with fallback to the
    whole list when that filter result is empty. -/
def availableVerses (verses : List Verse) (posted : List String) : List Verse :=
  if (verses.filter (fun v => decide (v.reference ∉ posted))).isEmpty then verses
  else verses.filter (fun v => decide (v.reference ∉ posted))

/-- The element of the available list drawn at attempt k:
    random.choices returns some element of the list, abstracted by the
    oracle index reduced modulo the length. -/
def drawAt (available : List Verse) (oracle : ℕ → ℕ) (k : ℕ) : Option Verse :=
  available.get? (oracle k % available.length)

/-- The message of the exception raised after max_attempts draws. -/
def noFittingMsg (m : ℕ) : String :=
  "Could not find a verse under 280 characters after " ++ toString m ++ " attempts"

/-- The retry loop of select_valid_verse: k is the current attempt
    index, the second argument the remaining attempts.  The none
    branch corresponds to random.choices raising on an empty
    sequence, reachable only when the verse list itself is empty. -/
def selectLoop (available : List Verse) (oracle : ℕ → ℕ) (msg : String) :
    ℕ → ℕ → Except String (Verse × String)
  | _, 0 => Except.error msg
  | k, fuel + 1 =>
    match drawAt available oracle k with
    | none => Except.error "ValueError: total of weights must be greater than zero"
    | some v =>
      if (formatTweet v).length ≤ 280 then Except.ok (v, formatTweet v)
      else selectLoop available oracle msg (k + 1) fuel

/-- select_valid_verse: load the posted set, filter, then draw up to
    maxAttempts candidates, returning the first whose formatted tweet
    fits in 280 characters. -/
def selectValidVerse (verses : List Verse) (fs : FS) (oracle : ℕ → ℕ)
    (maxAttempts : ℕ) : Except String (Verse × String) :=
  selectLoop (availableVerses verses (loadPostedVerses fs "posted_verses.txt"))
    oracle (noFittingMsg maxAttempts) 0 maxAttempts

/-- The body of main after the reset step.  The image content is
    opaque (the drawing calls are cosmetic); the Twitter call is the
    external publishResult.  On publish failure the exception
    propagates before the image cleanup and before save_posted_verse. -/
def mainRunBody (fs1 : FS) (today : String) (oracle : ℕ → ℕ)
    (publishResult : Except String String) : Except String String × FS :=
  match lookupFile fs1 "bible_verses.csv" with
  | none => (Except.ok "Error: bible_verses.csv not found!", fs1)
  | some csv =>
    match selectValidVerse (loadVerses csv) fs1 oracle 50 with
    | Except.error err => (Except.error err, fs1)
    | Except.ok (v, _tweet) =>
      let fs2 := setFile fs1 "verse_image.png" "PNG"
      match publishResult with
      | Except.error err => (Except.error err, fs2)
      | Except.ok tid =>
        (Except.ok tid,
          savePostedVerse (eraseFile fs2 "verse_image.png") v.reference today
            "posted_verses.txt")

/-- main: reset_if_new_year, load verses, select, render, publish,
    clean up, record. -/
def mainRun (fs : FS) (currentYear today : String) (oracle : ℕ → ℕ)
    (publishResult : Except String String) : Except String String × FS :=
  mainRunBody (resetIfNewYear fs currentYear "posted_verses.txt") today oracle
    publishResult

/-- The weight the source loop assigns to position i of the available
    list: 2.718 ** (-i/200). -/
noncomputable def codeWeight (i : ℕ) : ℝ :=
  (2.718 : ℝ) ^ (-(i : ℝ) / 200)

/-- The weights list built by the loop over range(len(available)). -/
noncomputable def codeWeights (n : ℕ) : List ℝ :=
  (List.range n).map codeWeight

/-- Modelled from the spec: weight(i) = e^(-i / 200) for position i of
    the eligible subsequence. -/
noncomputable def specWeight (i : ℕ) : ℝ :=
  Real.exp (-(i : ℝ) / 200)

/-- A reference is recorded in a list of ledger lines when some line
    has it as the part before the first pipe, matching the
    reference|YYYY-MM-DD line format written by save_posted_verse. -/
def isRecorded (r : String) (records : List String) : Prop :=
  ∃ l ∈ records, List.headD (splitOnC l '|') "" = r

/-- Concrete verses and filesystems used by witnesses and
    counterexamples. -/
def vJohn : Verse := ⟨"John 3:16", "For God so loved the world"⟩

def vPsalm : Verse := ⟨"Psalm 23:1", "The Lord is my shepherd"⟩

/-- A verse whose text alone exceeds the 280-character budget. -/
def vLong : Verse := ⟨"Psalm 119", String.mk (List.replicate 300 'a')⟩

/-- Ledger holding one record written by save_posted_verse. -/
def fsPosted : FS := [("posted_verses.txt", "John 3:16|2025-01-05\n")]

/-- Content of a one-record ledger written in 2024. -/
def oldYearContent : String := "John 3:16|2024-01-05\n"

/-- Ledger from 2024 together with an already existing archive file
    for 2024. -/
def fsCollide : FS :=
  [("posted_verses.txt", oldYearContent),
   ("posted_verses_2024.txt", "OLD ARCHIVE")]

/-- Content of a two-record ledger written in 2024. -/
def rollContent : String := "John 3:16|2024-01-05\nPsalm 23:1|2024-02-01\n"

/-- Ledger with two records from 2024. -/
def fsRoll : FS := [("posted_verses.txt", rollContent)]

/-- Ledger whose single line is a bare reference, so that every verse
    reference is a member of the loaded posted set. -/
def fsBare : FS := [("posted_verses.txt", "John 3:16\n")]

/-- Ledger whose first line has no pipe separator. -/
def fsNoPipe : FS := [("posted_verses.txt", "no separator here")]

/-- Current-year ledger plus the verse store file, a state on which
    reset_if_new_year is a no-op. -/
def fsMain : FS :=
  [("posted_verses.txt", "John 3:16|2025-01-05\n"),
   ("bible_verses.csv", "reference,text\nJohn 3:16,For God so loved the world\n")]

/-! ### Filesystem lemmas -/

lemma lookupFile_setFile_self (fs : FS) (n c : String) :
    lookupFile (setFile fs n c) n = some c := by
  simp [setFile, lookupFile]

lemma lookupFile_eraseFile_self (fs : FS) (n : String) :
    lookupFile (eraseFile fs n) n = none := by
  induction fs with
  | nil => rfl
  | cons p t ih =>
    obtain ⟨m, c⟩ := p
    by_cases h : m = n
    · simpa [eraseFile, List.filter_cons, h] using ih
    · simpa [eraseFile, List.filter_cons, h, lookupFile] using ih

lemma lookupFile_eraseFile_ne (fs : FS) (n m : String) (h : m ≠ n) :
    lookupFile (eraseFile fs n) m = lookupFile fs m := by
  have hnm : ¬ n = m := fun hh => h hh.symm
  induction fs with
  | nil => rfl
  | cons p t ih =>
    obtain ⟨a, c⟩ := p
    by_cases ha : a = n
    · subst ha
      rw [show eraseFile ((a, c) :: t) a = eraseFile t a from by
        simp [eraseFile, List.filter_cons]]
      rw [ih]
      simp [lookupFile, hnm]
    · rw [show eraseFile ((a, c) :: t) n = (a, c) :: eraseFile t n from by
        simp [eraseFile, List.filter_cons, ha]]
      by_cases hm : a = m
      · simp [lookupFile, hm]
      · simp [lookupFile, hm, ih]

lemma lookupFile_setFile_ne (fs : FS) (n c m : String) (h : m ≠ n) :
    lookupFile (setFile fs n c) m = lookupFile fs m := by
  have hnm : ¬ n = m := fun hh => h hh.symm
  have h1 : lookupFile (setFile fs n c) m = lookupFile (eraseFile fs n) m := by
    simp [setFile, lookupFile, hnm]
  rw [h1, lookupFile_eraseFile_ne fs n m h]

lemma loadPostedVerses_eq_nil (fs : FS) (pf : String)
    (h : lookupFile fs pf = none) : loadPostedVerses fs pf = [] := by
  unfold loadPostedVerses
  rw [h]

/-! ### Rollover lemmas -/

lemma reset_rename (fs : FS) (y c : String)
    (hc : lookupFile fs "posted_verses.txt" = some c)
    (hp : containsC (ledgerFirstLine c) '|' = true)
    (hy : lastYearOf c ≠ y) :
    resetIfNewYear fs y "posted_verses.txt" =
      setFile (eraseFile fs "posted_verses.txt") (backupName (lastYearOf c)) c := by
  unfold resetIfNewYear
  rw [hc]
  simp only [hp, if_true]
  rw [if_pos hy]
  unfold renameFile
  rw [hc]

lemma pf_ne_backup (yr : String) :
    ("posted_verses.txt" : String) ≠ backupName yr := by
  intro h
  have hlen := congrArg String.length h
  have h1 : ("posted_verses.txt" : String).length = 17 := rfl
  have h2 : (backupName yr).length = 18 + yr.length := by
    unfold backupName
    rw [String.length_append, String.length_append]
    have ha : ("posted_verses_" : String).length = 14 := rfl
    have hb : (".txt" : String).length = 4 := rfl
    omega
  omega

/-- C7: for every ledger whose first record year differs from the
    current year, reset_if_new_year leaves an empty active ledger (no
    reference is a member of the loaded posted set any more) and the
    archive file posted_verses_<Y1>.txt holds all the original
    records. -/
theorem c7_rollover_archives (fs : FS) (y c : String)
    (hc : lookupFile fs "posted_verses.txt" = some c)
    (hp : containsC (ledgerFirstLine c) '|' = true)
    (hy : lastYearOf c ≠ y) :
    (∀ r, r ∉ loadPostedVerses (resetIfNewYear fs y "posted_verses.txt")
      "posted_verses.txt")
    ∧ lookupFile (resetIfNewYear fs y "posted_verses.txt")
        (backupName (lastYearOf c)) = some c := by
  have hr := reset_rename fs y c hc hp hy
  constructor
  · intro r
    rw [hr, loadPostedVerses_eq_nil]
    · exact List.not_mem_nil r
    · rw [lookupFile_setFile_ne _ _ _ _ (pf_ne_backup _)]
      exact lookupFile_eraseFile_self fs _
  · rw [hr, lookupFile_setFile_self]

/-- C7 witness: concrete 2024 ledger rolled over in 2025. -/
theorem c7_rollover_archives_witness :
    (lookupFile fsRoll "posted_verses.txt" = some rollContent
      ∧ containsC (ledgerFirstLine rollContent) '|' = true
      ∧ lastYearOf rollContent ≠ "2025")
    ∧ "John 3:16" ∉ loadPostedVerses
        (resetIfNewYear fsRoll "2025" "posted_verses.txt") "posted_verses.txt"
    ∧ lookupFile (resetIfNewYear fsRoll "2025" "posted_verses.txt")
        (backupName (lastYearOf rollContent)) = some rollContent :=
  ⟨⟨by decide, by decide, by decide⟩,
   (c7_rollover_archives fsRoll "2025" rollContent (by decide) (by decide)
      (by decide)).1 "John 3:16",
   (c7_rollover_archives fsRoll "2025" rollContent (by decide) (by decide)
      (by decide)).2⟩

/-- C4 counterexample: with a 2024 ledger and an already existing
    archive posted_verses_2024.txt holding OLD ARCHIVE, the rollover
    replaces the archive content with the old ledger content without
    reporting anything, contradicting the claim that the collision is
    reported rather than silently overwritten. -/
theorem c4_silent_overwrite_counterexample :
    lookupFile fsCollide "posted_verses_2024.txt" = some "OLD ARCHIVE"
    ∧ lookupFile (resetIfNewYear fsCollide "2025" "posted_verses.txt")
        "posted_verses_2024.txt" = some oldYearContent
    ∧ oldYearContent ≠ "OLD ARCHIVE" := by
  refine ⟨by decide, by decide, by decide⟩

/-- C4 (amended): when the first record year differs from the current
    year and the archive target already exists, reset_if_new_year
    performs the rename unconditionally: the pre-existing archive
    content is silently replaced by the old ledger content (POSIX
    rename), and no collision check or report happens. -/
theorem c4_archive_overwrite (fs : FS) (y c old : String)
    (hc : lookupFile fs "posted_verses.txt" = some c)
    (hp : containsC (ledgerFirstLine c) '|' = true)
    (hy : lastYearOf c ≠ y)
    (hold : lookupFile fs (backupName (lastYearOf c)) = some old)
    (hdiff : old ≠ c) :
    lookupFile (resetIfNewYear fs y "posted_verses.txt")
      (backupName (lastYearOf c)) = some c
    ∧ lookupFile (resetIfNewYear fs y "posted_verses.txt")
        (backupName (lastYearOf c)) ≠ some old := by
  have hr := reset_rename fs y c hc hp hy
  rw [hr, lookupFile_setFile_self]
  exact ⟨rfl, fun h => hdiff (Option.some.inj h).symm⟩

/-- C4 witness: the concrete collision state. -/
theorem c4_archive_overwrite_witness :
    (lookupFile fsCollide "posted_verses.txt" = some oldYearContent
      ∧ lookupFile fsCollide (backupName (lastYearOf oldYearContent)) =
          some "OLD ARCHIVE")
    ∧ lookupFile (resetIfNewYear fsCollide "2025" "posted_verses.txt")
        (backupName (lastYearOf oldYearContent)) = some oldYearContent
    ∧ lookupFile (resetIfNewYear fsCollide "2025" "posted_verses.txt")
        (backupName (lastYearOf oldYearContent)) ≠ some "OLD ARCHIVE" :=
  ⟨⟨by decide, by decide⟩,
   c4_archive_overwrite fsCollide "2025" oldYearContent "OLD ARCHIVE"
     (by decide) (by decide) (by decide) (by decide) (by decide)⟩

/-- C10: when the ledger file exists but its first line has no pipe
    separator, reset_if_new_year leaves the whole filesystem unchanged
    for every current year: the ledger stays in place and no archive
    is created. -/
theorem c10_no_pipe_noop (fs : FS) (y pf c : String)
    (hc : lookupFile fs pf = some c)
    (hnp : containsC (ledgerFirstLine c) '|' = false) :
    resetIfNewYear fs y pf = fs := by
  unfold resetIfNewYear
  rw [hc]
  simp [hnp]

/-- C10 witness: a ledger whose single line has no pipe. -/
theorem c10_no_pipe_noop_witness :
    (lookupFile fsNoPipe "posted_verses.txt" = some "no separator here"
      ∧ containsC (ledgerFirstLine "no separator here") '|' = false)
    ∧ resetIfNewYear fsNoPipe "2099" "posted_verses.txt" = fsNoPipe :=
  ⟨⟨by decide, by decide⟩,
   c10_no_pipe_noop fsNoPipe "2099" "posted_verses.txt" "no separator here"
     (by decide) (by decide)⟩

/-! ### Selection lemmas -/

lemma drawAt_isSome (available : List Verse) (oracle : ℕ → ℕ) (k : ℕ)
    (h : available ≠ []) : ∃ v, drawAt available oracle k = some v := by
  have hlt : oracle k % available.length < available.length :=
    Nat.mod_lt _ (List.length_pos.mpr h)
  exact ⟨available.get ⟨_, hlt⟩, by unfold drawAt; exact List.get?_eq_get hlt⟩

lemma drawAt_mem (available : List Verse) (oracle : ℕ → ℕ) (k : ℕ) (v : Verse)
    (h : drawAt available oracle k = some v) : v ∈ available := by
  unfold drawAt at h
  exact List.get?_mem h

lemma selectLoop_succ_fit (available : List Verse) (oracle : ℕ → ℕ)
    (msg : String) (k fuel : ℕ) (v : Verse)
    (hv : drawAt available oracle k = some v)
    (hfit : (formatTweet v).length ≤ 280) :
    selectLoop available oracle msg k (fuel + 1) = Except.ok (v, formatTweet v) := by
  simp [selectLoop, hv, hfit]

lemma selectLoop_succ_unfit (available : List Verse) (oracle : ℕ → ℕ)
    (msg : String) (k fuel : ℕ) (v : Verse)
    (hv : drawAt available oracle k = some v)
    (hunfit : ¬ (formatTweet v).length ≤ 280) :
    selectLoop available oracle msg k (fuel + 1) =
      selectLoop available oracle msg (k + 1) fuel := by
  simp [selectLoop, hv, hunfit]

lemma selectLoop_ok_inv (available : List Verse) (oracle : ℕ → ℕ) (msg : String) :
    ∀ fuel k v t, selectLoop available oracle msg k fuel = Except.ok (v, t) →
      v ∈ available ∧ t = formatTweet v ∧ t.length ≤ 280 := by
  intro fuel
  induction fuel with
  | zero =>
    intro k v t h
    exact absurd h (by simp [selectLoop])
  | succ fuel ih =>
    intro k v t h
    rcases hd : drawAt available oracle k with _ | w
    · simp [selectLoop, hd] at h
    · by_cases hfit : (formatTweet w).length ≤ 280
      · rw [selectLoop_succ_fit available oracle msg k fuel w hd hfit] at h
        injection h with h1
        injection h1 with ha hb
        subst ha
        subst hb
        exact ⟨drawAt_mem available oracle k w hd, rfl, hfit⟩
      · rw [selectLoop_succ_unfit available oracle msg k fuel w hd hfit] at h
        exact ih (k + 1) v t h

lemma selectLoop_error_iff (available : List Verse) (oracle : ℕ → ℕ)
    (msg : String) (hav : available ≠ []) :
    ∀ fuel k, (selectLoop available oracle msg k fuel = Except.error msg ↔
      ∀ j, j < fuel → ∀ v, drawAt available oracle (k + j) = some v →
        280 < (formatTweet v).length) := by
  intro fuel
  induction fuel with
  | zero =>
    intro k
    constructor
    · intro _ j hj
      exact absurd hj (Nat.not_lt_zero j)
    · intro _
      rfl
  | succ fuel ih =>
    intro k
    obtain ⟨v, hv⟩ := drawAt_isSome available oracle k hav
    by_cases hfit : (formatTweet v).length ≤ 280
    · rw [selectLoop_succ_fit available oracle msg k fuel v hv hfit]
      constructor
      · intro h
        exact absurd h (by simp)
      · intro hall
        have h0 := hall 0 (Nat.succ_pos fuel) v (by rwa [Nat.add_zero])
        exact absurd hfit (not_le.mpr h0)
    · rw [selectLoop_succ_unfit available oracle msg k fuel v hv hfit]
      rw [ih (k + 1)]
      constructor
      · intro h j hj w hw
        rcases j with _ | j
        · rw [Nat.add_zero] at hw
          have hwv : v = w := Option.some.inj (hv.symm.trans hw)
          rw [← hwv]
          omega
        · have e : k + (j + 1) = (k + 1) + j := by omega
          rw [e] at hw
          exact h j (by omega) w hw
      · intro h j hj w hw
        have e : (k + 1) + j = k + (j + 1) := by omega
        rw [e] at hw
        exact h (j + 1) (by omega) w hw

lemma selectLoop_first_fit (available : List Verse) (oracle : ℕ → ℕ)
    (msg : String) :
    ∀ fuel k i, i < fuel →
      (∀ j, j < i → ∀ w, drawAt available oracle (k + j) = some w →
        280 < (formatTweet w).length) →
      ∀ v, drawAt available oracle (k + i) = some v →
        (formatTweet v).length ≤ 280 →
        selectLoop available oracle msg k fuel = Except.ok (v, formatTweet v) := by
  intro fuel
  induction fuel with
  | zero =>
    intro k i hi
    exact absurd hi (Nat.not_lt_zero i)
  | succ fuel ih =>
    intro k i hi hbef v hv hfit
    rcases i with _ | i
    · rw [Nat.add_zero] at hv
      exact selectLoop_succ_fit available oracle msg k fuel v hv hfit
    · have hne : available ≠ [] := by
        intro hnil
        rw [hnil] at hv
        simp [drawAt] at hv
      obtain ⟨w, hw⟩ := drawAt_isSome available oracle k hne
      have hwunfit : 280 < (formatTweet w).length :=
        hbef 0 (Nat.succ_pos i) w (by rwa [Nat.add_zero])
      rw [selectLoop_succ_unfit available oracle msg k fuel w hw (by omega)]
      refine ih (k + 1) i (by omega) ?_ v ?_ hfit
      · intro j hj u hu
        have e : (k + 1) + j = k + (j + 1) := by omega
        rw [e] at hu
        exact hbef (j + 1) (by omega) u hu
      · have e : (k + 1) + i = k + (i + 1) := by omega
        rw [e]
        exact hv

lemma availableVerses_subset (verses : List Verse) (posted : List String)
    (v : Verse) (h : v ∈ availableVerses verses posted) : v ∈ verses := by
  unfold availableVerses at h
  split at h
  · exact h
  · exact (List.mem_filter.mp h).1

lemma availableVerses_all_mem (verses : List Verse) (posted : List String)
    (h : ∀ v ∈ verses, v.reference ∈ posted) :
    availableVerses verses posted = verses := by
  have hfil : verses.filter (fun v => decide (v.reference ∉ posted)) = [] := by
    rw [List.filter_eq_nil_iff]
    intro a ha
    simp [h a ha]
  unfold availableVerses
  rw [hfil]
  rfl

lemma availableVerses_nil_posted (verses : List Verse) :
    availableVerses verses [] = verses := by
  have hfil : verses.filter
      (fun v => decide (v.reference ∉ ([] : List String))) = verses := by
    rw [List.filter_eq_self]
    intro a _
    simp
  unfold availableVerses
  rw [hfil]
  exact ite_self verses

set_option maxRecDepth 40000 in
/-- C5 counterexample: a non-empty store whose only verse formats to
    304 characters, with an empty ledger; select_valid_verse does not
    return normally but raises after exhausting its 50 attempts, so
    the claim that select always returns normally is false. -/
theorem c5_long_store_counterexample :
    [vLong] ≠ []
    ∧ loadPostedVerses ([] : FS) "posted_verses.txt" = []
    ∧ (selectValidVerse [vLong] ([] : FS) (fun _ => 0) 50).isOk = false :=
  ⟨by decide, rfl, by decide⟩

/-- C5 (amended): for every non-empty verse store and empty ledger,
    whenever select_valid_verse returns normally, the returned verse is
    present in the store and its formatted text has length at most
    280. -/
theorem c5_select_sound (verses : List Verse) (fs : FS) (oracle : ℕ → ℕ)
    (v : Verse) (t : String) (hne : verses ≠ [])
    (hled : loadPostedVerses fs "posted_verses.txt" = [])
    (hok : selectValidVerse verses fs oracle 50 = Except.ok (v, t)) :
    v ∈ verses ∧ t.length ≤ 280 := by
  unfold selectValidVerse at hok
  obtain ⟨hmem, _ht, hlen⟩ := selectLoop_ok_inv _ _ _ 50 0 v t hok
  exact ⟨availableVerses_subset _ _ _ hmem, hlen⟩

/-- C5 witness: a store of one short verse and the empty filesystem. -/
theorem c5_select_sound_witness :
    ([vJohn] ≠ [] ∧ loadPostedVerses ([] : FS) "posted_verses.txt" = [])
    ∧ vJohn ∈ [vJohn]
    ∧ ("For God so loved the world - John 3:16" : String).length ≤ 280 :=
  ⟨⟨by decide, rfl⟩,
   c5_select_sound [vJohn] [] (fun _ => 0) vJohn
     "For God so loved the world - John 3:16" (by decide) rfl (by rfl)⟩

/-- C6: with a non-empty available list, select_valid_verse fails with
    the no-fitting-verse error if and only if every one of its
    maxAttempts draws produces a candidate whose formatted text
    exceeds 280 characters; and the first draw whose formatted text is
    at most 280 characters is returned immediately together with that
    formatted text. -/
theorem c6_select_exhaustion_iff (verses : List Verse) (fs : FS)
    (oracle : ℕ → ℕ) (m : ℕ)
    (hav : availableVerses verses (loadPostedVerses fs "posted_verses.txt") ≠ []) :
    (selectValidVerse verses fs oracle m = Except.error (noFittingMsg m) ↔
      ∀ k, k < m → ∀ v,
        drawAt (availableVerses verses (loadPostedVerses fs "posted_verses.txt"))
          oracle k = some v → 280 < (formatTweet v).length)
    ∧ (∀ k, k < m →
        (∀ j, j < k → ∀ v,
          drawAt (availableVerses verses (loadPostedVerses fs "posted_verses.txt"))
            oracle j = some v → 280 < (formatTweet v).length) →
        ∀ v,
          drawAt (availableVerses verses (loadPostedVerses fs "posted_verses.txt"))
            oracle k = some v →
          (formatTweet v).length ≤ 280 →
          selectValidVerse verses fs oracle m = Except.ok (v, formatTweet v)) := by
  constructor
  · have h := selectLoop_error_iff
      (availableVerses verses (loadPostedVerses fs "posted_verses.txt"))
      oracle (noFittingMsg m) hav m 0
    simpa [selectValidVerse] using h
  · intro k hk hbef v hv hfit
    unfold selectValidVerse
    exact selectLoop_first_fit _ oracle _ m 0 k hk
      (fun j hj w hw => hbef j hj w (by rwa [Nat.zero_add] at hw))
      v (by rwa [Nat.zero_add]) hfit

/-- C6 witness: one short verse, empty ledger; the first draw fits and
    is returned with its formatted text. -/
theorem c6_select_exhaustion_iff_witness :
    (availableVerses [vJohn] (loadPostedVerses ([] : FS) "posted_verses.txt") ≠ [])
    ∧ selectValidVerse [vJohn] ([] : FS) (fun _ => 0) 50 =
        Except.ok (vJohn, formatTweet vJohn) :=
  ⟨by decide,
   (c6_select_exhaustion_iff [vJohn] [] (fun _ => 0) 50 (by decide)).2 0
     (by decide) (fun j hj => absurd hj (Nat.not_lt_zero j)) vJohn rfl
     (by decide)⟩

/-- C8: when every verse reference of the store is a member of the
    loaded posted set, the available list falls back to the whole
    store, and select_valid_verse behaves exactly as it would on an
    empty ledger, so a fully covered ledger alone causes no failure;
    select_valid_verse never writes, so the ledger is untouched. -/
theorem c8_full_ledger_fallback (verses : List Verse) (fs : FS)
    (oracle : ℕ → ℕ) (m : ℕ)
    (h : ∀ v ∈ verses, v.reference ∈ loadPostedVerses fs "posted_verses.txt") :
    availableVerses verses (loadPostedVerses fs "posted_verses.txt") = verses
    ∧ selectValidVerse verses fs oracle m = selectValidVerse verses [] oracle m := by
  have h1 := availableVerses_all_mem verses
    (loadPostedVerses fs "posted_verses.txt") h
  refine ⟨h1, ?_⟩
  unfold selectValidVerse
  rw [h1]
  have h2 : loadPostedVerses ([] : FS) "posted_verses.txt" = [] := rfl
  rw [h2, availableVerses_nil_posted]

/-- C8 witness: a ledger whose single line equals the only verse
    reference, so the filter empties and the fallback fires. -/
theorem c8_full_ledger_fallback_witness :
    (∀ v ∈ [vJohn], v.reference ∈ loadPostedVerses fsBare "posted_verses.txt")
    ∧ availableVerses [vJohn] (loadPostedVerses fsBare "posted_verses.txt") = [vJohn]
    ∧ selectValidVerse [vJohn] fsBare (fun _ => 0) 50 =
        selectValidVerse [vJohn] [] (fun _ => 0) 50 :=
  ⟨by decide, c8_full_ledger_fallback [vJohn] fsBare (fun _ => 0) 50 (by decide)⟩

/-- C1: the record/lookup round trip fails on the code.  After
    save_posted_verse writes John 3:16 with todays date to an empty
    ledger, load_posted_verses yields the whole line
    John 3:16|2025-10-12, so the bare reference John 3:16 is NOT a
    member of the loaded set, contradicting the claim that isPosted is
    true immediately after record. -/
theorem c1_record_lookup_roundtrip_fails :
    "John 3:16" ∉ loadPostedVerses
      (savePostedVerse ([] : FS) "John 3:16" "2025-10-12" "posted_verses.txt")
      "posted_verses.txt"
    ∧ "John 3:16|2025-10-12" ∈ loadPostedVerses
        (savePostedVerse ([] : FS) "John 3:16" "2025-10-12" "posted_verses.txt")
        "posted_verses.txt" := by
  refine ⟨by decide, by decide⟩

/-- C2: select_valid_verse can return a verse whose reference is
    recorded in the current-cycle ledger even though an unrecorded
    verse exists.  The ledger records John 3:16 (in the
    reference|date format save_posted_verse writes), Psalm 23:1 is
    unrecorded, yet the draw returns John 3:16, because the filter
    compares bare references against whole reference|date lines. -/
theorem c2_select_draws_recorded_verse :
    isRecorded "John 3:16" (loadPostedVerses fsPosted "posted_verses.txt")
    ∧ ¬ isRecorded "Psalm 23:1" (loadPostedVerses fsPosted "posted_verses.txt")
    ∧ selectValidVerse [vJohn, vPsalm] fsPosted (fun _ => 0) 50 =
        Except.ok (vJohn, "For God so loved the world - John 3:16") := by
  refine ⟨?_, ?_, by rfl⟩
  · unfold isRecorded
    decide
  · unfold isRecorded
    decide

/-! ### Weights -/

/-- All weights produced by the source loop are strictly positive, so
    random.choices can return any index of the available list; this
    justifies the oracle abstraction used by selectLoop. -/
lemma codeWeight_pos (i : ℕ) : 0 < codeWeight i := by
  unfold codeWeight
  exact Real.rpow_pos_of_pos (by norm_num) _

/-- C3 counterexample: the weight the code assigns to position 200 of
    a 201-element eligible subsequence is 2.718 ^ (-1), which is not
    e ^ (-1), because the source uses the literal 2.718 rather than
    the constant e. -/
theorem c3_weight_base_counterexample :
    (codeWeights 201).get? 200 ≠ some (specWeight 200) := by
  have hget : (codeWeights 201).get? 200 = some (codeWeight 200) := by
    unfold codeWeights
    rw [List.get?_map, List.get?_range (by omega)]
    rfl
  rw [hget]
  intro hcontra
  have heq : codeWeight 200 = specWeight 200 := Option.some.inj hcontra
  unfold codeWeight specWeight at heq
  have h200 : (-((200 : ℕ) : ℝ) / 200) = (-1 : ℝ) := by norm_num
  rw [h200] at heq
  have hl : (2.718 : ℝ) ^ (-1 : ℝ) = (2.718 : ℝ)⁻¹ := by
    rw [show (-1 : ℝ) = -(1 : ℝ) from rfl, Real.rpow_neg (by norm_num),
      Real.rpow_one]
  have hr : Real.exp (-1) = (Real.exp 1)⁻¹ := Real.exp_neg 1
  rw [hl, hr] at heq
  have hbase : (2.718 : ℝ) = Real.exp 1 := inv_inj.mp heq
  have hlt : (2.718 : ℝ) < Real.exp 1 :=
    lt_trans (by norm_num) Real.exp_one_gt_d9
  exact absurd hbase (ne_of_lt hlt)

/-- C3 (amended): the weight assigned to position i of the eligible
    subsequence (i starting at 0, position within the eligible
    subsequence) equals 2.718 ^ (-i / 200), the literal base the
    source uses in place of e. -/
theorem c3_weight_formula (n i : ℕ) (h : i < n) :
    (codeWeights n).get? i = some ((2.718 : ℝ) ^ (-(i : ℝ) / 200)) := by
  unfold codeWeights
  rw [List.get?_map, List.get?_range h]
  rfl

/-- C3 witness: position 200 of the 201-element weights list. -/
theorem c3_weight_formula_witness :
    200 < 201
    ∧ (codeWeights 201).get? 200 =
        some ((2.718 : ℝ) ^ (-((200 : ℕ) : ℝ) / 200)) :=
  ⟨by omega, c3_weight_formula 201 200 (by omega)⟩

/-! ### Main run -/

lemma mainRunBody_publish_error (fs1 : FS) (today : String) (oracle : ℕ → ℕ)
    (e : String) :
    lookupFile (mainRunBody fs1 today oracle (Except.error e)).2
      "posted_verses.txt" = lookupFile fs1 "posted_verses.txt" := by
  unfold mainRunBody
  split
  · rfl
  · split
    · rfl
    · exact lookupFile_setFile_ne fs1 "verse_image.png" "PNG"
        "posted_verses.txt" (by decide)

/-- C9: when the publish call fails, main appends nothing to the
    ledger: the ledger file after the run equals the ledger file right
    after the reset step, and whenever the reset step is a no-op the
    ledger file is exactly the one the run started with; in
    particular save_posted_verse never runs on a failed publish. -/
theorem c9_failed_publish_no_record (fs : FS) (y d e : String)
    (oracle : ℕ → ℕ) :
    lookupFile (mainRun fs y d oracle (Except.error e)).2 "posted_verses.txt"
      = lookupFile (resetIfNewYear fs y "posted_verses.txt") "posted_verses.txt"
    ∧ (resetIfNewYear fs y "posted_verses.txt" = fs →
        lookupFile (mainRun fs y d oracle (Except.error e)).2 "posted_verses.txt"
          = lookupFile fs "posted_verses.txt") := by
  constructor
  · unfold mainRun
    exact mainRunBody_publish_error _ d oracle e
  · intro hreset
    unfold mainRun
    rw [hreset]
    exact mainRunBody_publish_error fs d oracle e

/-- C9 witness: current-year ledger and verse store present, publish
    fails; the ledger file is untouched. -/
theorem c9_failed_publish_no_record_witness :
    (resetIfNewYear fsMain "2025" "posted_verses.txt" = fsMain)
    ∧ lookupFile
        (mainRun fsMain "2025" "2025-10-12" (fun _ => 0)
          (Except.error "PublishError")).2 "posted_verses.txt"
      = lookupFile fsMain "posted_verses.txt" :=
  ⟨by decide,
   (c9_failed_publish_no_record fsMain "2025" "2025-10-12" "PublishError"
     (fun _ => 0)).2 (by decide)⟩
